import Mathlib

/-
Shallow embedding of the SIAS attendance backend (src/main.py, src/schemas.py).

Collections (MongoDB) are modelled as Lean lists; `find_one` is `List.find?`
(first match in natural order), `update_one(filter, {$set: doc}, upsert=True)`
is `upsertAbsensi` (modify the first matching document by merging the $set
fields, or append a fresh document when none matches), `delete_many` is a
filter, `delete_one` removes the first match.

Dates (ISO `YYYY-MM-DD` strings in the source, compared both as parsed dates
and lexicographically — the two orders agree on valid ISO dates) are modelled
as day numbers (`Nat`).  The logical clock (`today_str`, `now_time_str`) is
passed explicitly as `today : Nat` / `now : String`.  Timestamp metadata
fields (`created_at`/`updated_at`) and ObjectId parsing are omitted: no claim
mentions them.  Status strings "Hadir"/"Sakit"/"Izin"/"Alpha" (Present / Sick
/ Excused / Absent) become the `Status` inductive; a document may also lack
the field (`Option Status`), matching `schemas.py` where `status` is optional.
-/

namespace SIAS

inductive Status where
  | Hadir
  | Sakit
  | Izin
  | Alpha
deriving DecidableEq, Repr

/-- Row of the `kelas` collection: `{_id, nama_kelas}`. -/
structure Kelas where
  id : String
  nama_kelas : String
deriving DecidableEq, Repr

/-- Row of the `siswa` collection: `{_id, nis, nama_lengkap, id_kelas}`. -/
structure Siswa where
  id : String
  nis : String
  nama_lengkap : String
  id_kelas : String
deriving DecidableEq, Repr

/-- Row of the `absensi` collection: `{id_siswa, tanggal, jam_masuk?, status?}`. -/
structure Absensi where
  id_siswa : String
  tanggal : Nat
  jam_masuk : Option String
  status : Option Status
deriving DecidableEq, Repr

/-- The three collections the attendance logic touches. -/
structure Store where
  kelas : List Kelas
  siswa : List Siswa
  absensi : List Absensi
deriving DecidableEq, Repr

/-- Python truthiness of an optional query-string parameter:
`if q:` is false both for `None` and for the empty string. -/
def optTruthy (o : Option String) : Bool :=
  match o with
  | some s => !s.isEmpty
  | none => false

/-- `db.siswa.find_one({"nis": nis})`. -/
def findSiswaByNis (store : Store) (nis : String) : Option Siswa :=
  store.siswa.find? (fun s => s.nis = nis)

/-- The composite upsert key used by both attendance writers. -/
def absKeyMatch (sid : String) (tgl : Nat) (a : Absensi) : Bool :=
  a.id_siswa = sid && a.tanggal = tgl

/-- `db.absensi.find_one({"id_siswa": sid, "tanggal": tgl})` — first match. -/
def lookupKey (l : List Absensi) (sid : String) (tgl : Nat) : Option Absensi :=
  l.find? (absKeyMatch sid tgl)

/-- The `jam_masuk` field after a `$set`: the new value when the update
document carries the field, the old value otherwise. -/
def setJamField (jam old : Option String) : Option String :=
  match jam with
  | some j => some j
  | none => old

/-- Apply the `$set` document of the attendance writers to an existing
document: `status` is always written, `jam_masuk` only when carried. -/
def applySet (a : Absensi) (stat : Status) (jam : Option String) : Absensi :=
  { a with status := some stat, jam_masuk := setJamField jam a.jam_masuk }

/-- `db.absensi.update_one({"id_siswa": sid, "tanggal": tgl}, {"$set": doc},
upsert=True)`.  The `$set` document always carries `id_siswa`, `tanggal` and
`status`; it carries `jam_masuk` only when `jam = some _` (MongoDB `$set`
leaves fields that are not listed untouched).  The first matching document is
updated in place; if none matches, a fresh document is inserted. -/
def upsertAbsensi (l : List Absensi) (sid : String) (tgl : Nat)
    (stat : Status) (jam : Option String) : List Absensi :=
  match l with
  | [] => [⟨sid, tgl, jam, some stat⟩]
  | a :: rest =>
      if absKeyMatch sid tgl a then applySet a stat jam :: rest
      else a :: upsertAbsensi rest sid tgl stat jam

/-- Result of `POST /api/absen/checkin`. -/
inductive CheckinResult where
  | notFound
  | already (message : String) (jam_masuk : Option String)
  | ok (message : String) (jam_masuk : String)
deriving DecidableEq, Repr

/-- `absen_checkin` (src/main.py lines 325-363): resolve the student by NIS;
if a record for (student, today) with status Hadir exists, return it with no
write; otherwise upsert a Hadir record with the current time. -/
def absen_checkin (store : Store) (nis : String) (today : Nat) (now : String) :
    CheckinResult × Store :=
  match findSiswaByNis store nis with
  | none => (CheckinResult.notFound, store)
  | some siswa =>
      match store.absensi.find? (fun a =>
          a.id_siswa = siswa.id && a.tanggal = today &&
          a.status = some Status.Hadir) with
      | some existing =>
          (CheckinResult.already
            ("Sudah absen hari ini pada " ++ existing.jam_masuk.getD "-")
            existing.jam_masuk,
           store)
      | none =>
          (CheckinResult.ok "Absensi berhasil" now,
           { store with
              absensi := upsertAbsensi store.absensi siswa.id today
                Status.Hadir (some now) })

/-- Result of `PUT /api/absen/status`. -/
inductive SetStatusResult where
  | notFound
  | ok (tanggal : Nat) (stat : Status)
deriving DecidableEq, Repr

/-- Python `x or y` for an optional string: `y` when `x` is `None` or the
empty string (both falsy), otherwise the value of `x`. -/
def orElseTruthy (x : Option String) (y : String) : String :=
  match x with
  | some j => if j.isEmpty then y else j
  | none => y

/-- `set_status` (src/main.py lines 418-441): resolve the student by NIS,
default the date to today, and upsert.  `jam_masuk` enters the `$set`
document when status = Hadir (`payload.jam_masuk or now_time_str()`, Python
truthiness: an empty provided string also falls back to the current time) or
when it was explicitly provided (`is not None`, so an empty string is
written in that branch). -/
def set_status (store : Store) (nis : String) (tanggalOpt : Option Nat)
    (stat : Status) (jam_masuk : Option String) (today : Nat) (now : String) :
    SetStatusResult × Store :=
  match findSiswaByNis store nis with
  | none => (SetStatusResult.notFound, store)
  | some siswa =>
      let tanggal := tanggalOpt.getD today
      let jamSet : Option String :=
        if stat = Status.Hadir then some (orElseTruthy jam_masuk now)
        else jam_masuk
      (SetStatusResult.ok tanggal stat,
       { store with
          absensi := upsertAbsensi store.absensi siswa.id tanggal stat jamSet })

/-- `kelas_map.get(id_kelas, "")` after building the id → name map. -/
def kelasName (store : Store) (kid : String) : String :=
  ((store.kelas.find? (fun k => k.id = kid)).map Kelas.nama_kelas).getD ""

/-- The dict comprehension `{a["id_siswa"]: a for a in absensi.find({"tanggal":
today})}` — later records overwrite earlier ones at the same key. -/
def absMapToday (store : Store) (today : Nat) : String → Option Absensi :=
  (store.absensi.filter (fun a => a.tanggal = today)).foldl
    (fun m a => Function.update m a.id_siswa (some a)) (fun _ => none)

/-- The if/elif/else chain of `status_today` rendering one student's status. -/
def statusText (a : Option Absensi) : String :=
  match a with
  | some r =>
      match r.status with
      | some Status.Hadir => "Sudah Absen pukul " ++ r.jam_masuk.getD "-"
      | some Status.Sakit => "Sakit"
      | some Status.Izin => "Izin"
      | _ => "Belum Absen"
  | none => "Belum Absen"

/-- One row of the `GET /api/status/today` response. -/
structure TodayRow where
  nama : String
  nis : String
  kelas : String
  status_hari_ini : String
deriving DecidableEq, Repr

/-- `status_today` (src/main.py lines 366-397). -/
def status_today (store : Store) (id_kelas : Option String) (today : Nat) :
    List TodayRow :=
  let siswa_list := store.siswa.filter (fun s =>
    !optTruthy id_kelas || s.id_kelas = id_kelas.getD "")
  let m := absMapToday store today
  siswa_list.map (fun s =>
    { nama := s.nama_lengkap
      nis := s.nis
      kelas := kelasName store s.id_kelas
      status_hari_ini := statusText (m s.id) })

/-- Count of today's absensi documents with the given status — the embedding
of the `$match`/`$group`-by-status aggregation pipeline of `stats_today`
(the document store is an external collaborator; its group-count is the
number of matching documents per key). -/
def countTodayStatus (store : Store) (today : Nat) (stat : Status) : Nat :=
  (store.absensi.filter (fun a =>
    a.tanggal = today && a.status = some stat)).length

/-- Response of `GET /api/stats/today`. -/
structure StatsToday where
  hadir : Nat
  sakit : Nat
  izin : Nat
  alpha : Int
  total : Nat
deriving DecidableEq, Repr

/-- `stats_today` (src/main.py lines 400-415). -/
def stats_today (store : Store) (today : Nat) : StatsToday :=
  let total := store.siswa.length
  let hadir := countTodayStatus store today Status.Hadir
  let sakit := countTodayStatus store today Status.Sakit
  let izin := countTodayStatus store today Status.Izin
  { hadir := hadir, sakit := sakit, izin := izin
    alpha := max 0 ((total : Int) - ((hadir : Int) + sakit + izin))
    total := total }

/-- Error taxonomy surfaced by the handlers the claims mention. -/
inductive ApiErr where
  | invalidRange
  | notFound
deriving DecidableEq, Repr

/-- One summary row of `GET /api/laporan/rekap`. -/
structure RekapRow where
  nis : String
  nama : String
  kelas : String
  hadir : Nat
  sakit : Nat
  izin : Nat
  alpha : Int
deriving DecidableEq, Repr

/-- The per-student summary dict, modelled as a finite map (`_id` is unique
in MongoDB, so dict insertion never collides in practice). -/
abbrev Summary := String → Option RekapRow

/-- The per-student `present_map` of recorded dates (`set()` in the source,
modelled as a duplicate-free list). -/
abbrev PresentMap := String → List Nat

/-- Initial summary row for one student. -/
def initRow (store : Store) (s : Siswa) : RekapRow :=
  { nis := s.nis, nama := s.nama_lengkap, kelas := kelasName store s.id_kelas
    hadir := 0, sakit := 0, izin := 0, alpha := 0 }

/-- `summary[str(s["_id"])] = {...}` for each student in resolution order. -/
def initSummary (store : Store) (siswa_list : List Siswa) : Summary :=
  siswa_list.foldl
    (fun m s => Function.update m s.id (some (initRow store s))) (fun _ => none)

/-- `summary[sid][st] += 1` for a counted status. -/
def bumpRow (r : RekapRow) (stat : Status) : RekapRow :=
  match stat with
  | Status.Hadir => { r with hadir := r.hadir + 1 }
  | Status.Sakit => { r with sakit := r.sakit + 1 }
  | Status.Izin => { r with izin := r.izin + 1 }
  | Status.Alpha => r

/-- `present_map[sid].add(tanggal)` (set insertion). -/
def insertDate (l : List Nat) (d : Nat) : List Nat :=
  if d ∈ l then l else d :: l

/-- The body of the record loop of `laporan_rekap` (src/main.py lines
503-509): skip records of unresolved students (`if sid in summary`), read
`st = record.status or "Alpha"`, and on a counted status bump the counter
and record the date. -/
def rekapStep (acc : Summary × PresentMap) (a : Absensi) : Summary × PresentMap :=
  match acc.1 a.id_siswa with
  | none => acc
  | some r =>
      let stat := a.status.getD Status.Alpha
      if stat = Status.Hadir ∨ stat = Status.Sakit ∨ stat = Status.Izin then
        (Function.update acc.1 a.id_siswa (some (bumpRow r stat)),
         Function.update acc.2 a.id_siswa (insertDate (acc.2 a.id_siswa) a.tanggal))
      else acc

/-- The student-set resolution of `laporan_rekap`: filter by class and/or nis
(each filter applies only when the parameter is truthy). -/
def resolvedSiswa (store : Store) (id_kelas nisq : Option String) : List Siswa :=
  store.siswa.filter (fun s =>
    (!optTruthy id_kelas || s.id_kelas = id_kelas.getD "") &&
    (!optTruthy nisq || s.nis = nisq.getD ""))

/-- The absensi fetch of `laporan_rekap` (src/main.py lines 473-477):
date in [start, end] and — only when the resolved id list is nonempty —
`id_siswa` among the resolved ids. -/
def rekapData (store : Store) (start end_ : Nat) (ids : List String) :
    List Absensi :=
  store.absensi.filter (fun a =>
    (decide (start ≤ a.tanggal) && decide (a.tanggal ≤ end_)) &&
    (ids.isEmpty || ids.contains a.id_siswa))

/-- `laporan_rekap` (src/main.py lines 445-516).  Date parsing is abstracted
(dates arrive as day numbers); the handler performs no store writes, so the
store is returned unchanged. -/
def laporan_rekap (store : Store) (start end_ : Nat)
    (id_kelas nisq : Option String) :
    Except ApiErr (List RekapRow) × Store :=
  if end_ < start then (Except.error ApiErr.invalidRange, store)
  else
    let siswa_list := resolvedSiswa store id_kelas nisq
    if optTruthy nisq && siswa_list.isEmpty then
      (Except.error ApiErr.notFound, store)
    else
      let siswa_ids := siswa_list.map Siswa.id
      let data := rekapData store start end_ siswa_ids
      let all_dates := (List.range (end_ - start + 1)).map (fun i => start + i)
      let acc := data.foldl rekapStep (initSummary store siswa_list, fun _ => [])
      let final : Summary := fun sid =>
        (acc.1 sid).map (fun r =>
          { r with
              alpha := max 0 ((all_dates.length : Int) - ((acc.2 sid).length : Int)) })
      (Except.ok (siswa_list.map (fun s => (final s.id).getD (initRow store s))),
       store)

/-- `db.absensi.delete_many({"id_siswa": sid})`. -/
def deleteAbsensiBySiswa (l : List Absensi) (sid : String) : List Absensi :=
  l.filter (fun a => !(a.id_siswa = sid))

/-- `db.siswa.delete_one({"_id": objid(sid)})` — remove the first matching
document, `none` when `deleted_count == 0`. -/
def deleteOneSiswa (l : List Siswa) (sid : String) : Option (List Siswa) :=
  match l with
  | [] => none
  | s :: rest =>
      if s.id = sid then some rest
      else (deleteOneSiswa rest sid).map (fun r => s :: r)

/-- `delete_siswa` (src/main.py lines 313-321): delete the attendance rows of
the id first, then delete the student and 404 when nothing was deleted.
ObjectId validity is abstracted (ids are plain strings). -/
def delete_siswa (store : Store) (siswa_id : String) :
    Except ApiErr Unit × Store :=
  let store1 := { store with
    absensi := deleteAbsensiBySiswa store.absensi siswa_id }
  match deleteOneSiswa store1.siswa siswa_id with
  | none => (Except.error ApiErr.notFound, store1)
  | some siswa' => (Except.ok (), { store1 with siswa := siswa' })

/-- The PCRE metacharacters of the MongoDB `$regex` operator; a pattern free
of all of them consists of literal characters only. -/
def regexMeta : List Char :=
  ['.', '*', '+', '?', '[', ']', '(', ')', '\x7b', '\x7d', '^', '$', '|', '\\']

/-- One pattern character against one text character, case-insensitively:
`.` is the wildcard, anything else matches literally.  The regex engine is
an external collaborator; this models the `$regex` operator with option
`"i"` only on the fragment of patterns built from characters outside
`regexMeta` plus the `.` wildcard — theorems about literal substring
behaviour therefore assume the pattern free of every metacharacter, and the
wildcard case is exercised only on the `.` counterexample, where the model
and the engine agree. -/
def regexCharMatch (p c : Char) : Bool :=
  p = '.' || p.toLower = c.toLower

/-- Does the pattern match a prefix of the text? -/
def matchesPrefix : List Char → List Char → Bool
  | [], _ => true
  | _ :: _, [] => false
  | p :: ps, c :: cs => regexCharMatch p c && matchesPrefix ps cs

/-- Unanchored regex search: does the pattern match somewhere in the text? -/
def regexSearch (p : List Char) : List Char → Bool
  | [] => matchesPrefix p []
  | c :: cs => matchesPrefix p (c :: cs) || regexSearch p cs

/-- The `$or` regex filter of `list_siswa`: match on name or on nis. -/
def siswaMatchQ (q : String) (s : Siswa) : Bool :=
  regexSearch q.toList s.nama_lengkap.toList ||
  regexSearch q.toList s.nis.toList

/-- `list_siswa` (src/main.py lines 265-284), restricted to which students
appear (the response decoration with class names and the sort by name do not
change membership and are omitted).  Empty-string parameters are falsy in
Python, hence `optTruthy`. -/
def list_siswa (store : Store) (id_kelas : Option String) (q : Option String) :
    List Siswa :=
  store.siswa.filter (fun s =>
    (!optTruthy id_kelas || s.id_kelas = id_kelas.getD "") &&
    (!optTruthy q || siswaMatchQ (q.getD "") s))

/-- The attendance-writing operations of claim C-style sequences:
check-in and manual status set. -/
inductive AbsOp where
  | checkin (nis : String) (today : Nat) (now : String)
  | setstat (nis : String) (tanggal : Option Nat) (stat : Status)
      (jam : Option String) (today : Nat) (now : String)

/-- Apply one operation to the store, keeping only the state. -/
def applyOp (store : Store) : AbsOp → Store
  | AbsOp.checkin nis today now => (absen_checkin store nis today now).2
  | AbsOp.setstat nis tgl stat jam today now =>
      (set_status store nis tgl stat jam today now).2

/-- Number of absensi documents sharing one (student, date) key. -/
def keyCount (l : List Absensi) (sid : String) (tgl : Nat) : Nat :=
  (l.filter (absKeyMatch sid tgl)).length

/-- The per-(student, date) uniqueness invariant. -/
def AtMostOnePerKey (l : List Absensi) : Prop :=
  ∀ sid tgl, keyCount l sid tgl ≤ 1

/-- The record-loop body of `laporan_rekap` restricted to a single student
key: how one record transforms that student's (row, recorded-dates) pair. -/
def stepAtKey (acc : Option RekapRow × List Nat) (a : Absensi) :
    Option RekapRow × List Nat :=
  match acc.1 with
  | none => acc
  | some r =>
      let stat := a.status.getD Status.Alpha
      if stat = Status.Hadir ∨ stat = Status.Sakit ∨ stat = Status.Izin then
        (some (bumpRow r stat), insertDate acc.2 a.tanggal)
      else acc

/-- Does a record carry one of the three counted statuses?  (`status or
"Alpha"` is counted exactly when the field is present and not Alpha.) -/
def countedStat (a : Absensi) : Bool :=
  a.status = some Status.Hadir || a.status = some Status.Sakit ||
  a.status = some Status.Izin

/-- The claim's `recorded_dates`: the set of dates in [start, end] on which
the student has a record with status Hadir, Sakit or Izin. -/
def recordedDates (store : Store) (sid : String) (start end_ : Nat) :
    Finset Nat :=
  ((store.absensi.filter (fun a =>
      a.id_siswa = sid &&
      (decide (start ≤ a.tanggal) && decide (a.tanggal ≤ end_)) &&
      countedStat a)).map Absensi.tanggal).toFinset

/-- Number of the student's records in [start, end] carrying one given
status. -/
def countStatusInRange (store : Store) (sid : String) (start end_ : Nat)
    (stat : Status) : Nat :=
  (store.absensi.filter (fun a =>
    a.id_siswa = sid &&
    (decide (start ≤ a.tanggal) && decide (a.tanggal ≤ end_)) &&
    a.status = some stat)).length

/-- The summary row claim C1 asserts for each resolved student: per-status
record counts, and Absent derived as `max(0, total_days - |recorded_dates|)`. -/
def specRekapRow (store : Store) (start end_ : Nat) (s : Siswa) : RekapRow :=
  { nis := s.nis, nama := s.nama_lengkap, kelas := kelasName store s.id_kelas
    hadir := countStatusInRange store s.id start end_ Status.Hadir
    sakit := countStatusInRange store s.id start end_ Status.Sakit
    izin := countStatusInRange store s.id start end_ Status.Izin
    alpha := max 0 (((end_ - start + 1 : Nat) : Int) -
      ((recordedDates store s.id start end_).card : Int)) }

/-- Case-insensitive substring containment — the spec's phrase "name or nis
contains q as a case-insensitive substring". -/
def containsCI (q s : String) : Prop :=
  (q.toList.map Char.toLower) <:+: (s.toList.map Char.toLower)

/- Concrete stores used to exercise the theorems. -/

/-- One student over a 5-day range: Hadir on days 0 and 1, an explicit Alpha
record on day 2, nothing on days 3 and 4. -/
def exRekapStore : Store :=
  { kelas := [⟨"k1", "X-A"⟩]
    siswa := [⟨"s1", "1001", "Budi", "k1"⟩]
    absensi := [⟨"s1", 0, some "07:00", some Status.Hadir⟩,
                ⟨"s1", 1, some "07:05", some Status.Hadir⟩,
                ⟨"s1", 2, none, some Status.Alpha⟩] }

/-- A student already checked in (Hadir) today (= day 0). -/
def exIdemStore : Store :=
  { kelas := [⟨"k1", "X-A"⟩]
    siswa := [⟨"s1", "1001", "Budi", "k1"⟩]
    absensi := [⟨"s1", 0, some "07:00", some Status.Hadir⟩] }

/-- A student with a stored explicit Alpha record for today (= day 0). -/
def exAlphaStore : Store :=
  { kelas := []
    siswa := [⟨"s1", "1001", "Budi", "k1"⟩]
    absensi := [⟨"s1", 0, none, some Status.Alpha⟩] }

/-- Ten students; today (= day 0) has 3 Hadir, 1 Sakit, 0 Izin records. -/
def exStatsStore : Store :=
  { kelas := []
    siswa := [⟨"s0", "2000", "A", "k"⟩, ⟨"s1", "2001", "B", "k"⟩,
              ⟨"s2", "2002", "C", "k"⟩, ⟨"s3", "2003", "D", "k"⟩,
              ⟨"s4", "2004", "E", "k"⟩, ⟨"s5", "2005", "F", "k"⟩,
              ⟨"s6", "2006", "G", "k"⟩, ⟨"s7", "2007", "H", "k"⟩,
              ⟨"s8", "2008", "I", "k"⟩, ⟨"s9", "2009", "J", "k"⟩]
    absensi := [⟨"s0", 0, some "07:00", some Status.Hadir⟩,
                ⟨"s1", 0, some "07:01", some Status.Hadir⟩,
                ⟨"s2", 0, some "07:02", some Status.Hadir⟩,
                ⟨"s3", 0, none, some Status.Sakit⟩] }

/-- A student who checked in (Hadir, 07:00) on day 0. -/
def exJamStore : Store :=
  { kelas := []
    siswa := [⟨"s1", "1001", "Budi", "k1"⟩]
    absensi := [⟨"s1", 0, some "07:00", some Status.Hadir⟩] }

/-- A student marked Sakit for today (= day 0). -/
def exSickStore : Store :=
  { kelas := []
    siswa := [⟨"s1", "1001", "Budi", "k1"⟩]
    absensi := [⟨"s1", 0, none, some Status.Sakit⟩] }

/-- Two students over days 0..2; used for range-report error paths. -/
def exRangeStore : Store :=
  { kelas := []
    siswa := [⟨"s1", "1001", "Budi", "k1"⟩, ⟨"s2", "1002", "Siti", "k1"⟩]
    absensi := [⟨"s1", 0, some "07:00", some Status.Hadir⟩] }

/-- One student named "abc"; the query "a.c" matches it as a regex but not as
a substring. -/
def exRegexStore : Store :=
  { kelas := []
    siswa := [⟨"s1", "3001", "abc", "k1"⟩]
    absensi := [] }

/-- Students for the literal-substring listing example. -/
def exSubstrStore : Store :=
  { kelas := []
    siswa := [⟨"s1", "1001", "Budi", "k1"⟩, ⟨"s2", "1002", "Siti", "k1"⟩]
    absensi := [] }

/-- A store whose absensi collection holds rows keyed by a student id that no
longer exists in the siswa collection. -/
def exOrphanStore : Store :=
  { kelas := []
    siswa := [⟨"s1", "1001", "Budi", "k1"⟩]
    absensi := [⟨"ghost", 0, some "07:00", some Status.Hadir⟩,
                ⟨"ghost", 1, none, some Status.Sakit⟩,
                ⟨"s1", 0, some "07:10", some Status.Hadir⟩] }

/- Theorems. -/

/-- C3: check_in is idempotent for a student already marked Present (Hadir)
today: when a (student, today, Hadir) record exists, the call performs no
write, returns the existing record's check-in time unchanged, and its message
names that time. -/
theorem checkin_idempotent (store : Store) (nis : String) (today : Nat)
    (now : String) (s : Siswa) (e : Absensi)
    (hs : findSiswaByNis store nis = some s)
    (he : store.absensi.find? (fun a =>
      a.id_siswa = s.id && a.tanggal = today &&
      a.status = some Status.Hadir) = some e) :
    absen_checkin store nis today now =
      (CheckinResult.already
        ("Sudah absen hari ini pada " ++ e.jam_masuk.getD "-") e.jam_masuk,
       store) := by
  unfold absen_checkin
  rw [hs]
  simp only [he]

theorem checkin_idempotent_witness :
    findSiswaByNis exIdemStore "1001" = some ⟨"s1", "1001", "Budi", "k1"⟩ ∧
    exIdemStore.absensi.find? (fun a =>
      a.id_siswa = "s1" && a.tanggal = 0 && a.status = some Status.Hadir) =
      some ⟨"s1", 0, some "07:00", some Status.Hadir⟩ ∧
    absen_checkin exIdemStore "1001" 0 "08:00" =
      (CheckinResult.already
        ("Sudah absen hari ini pada " ++ (some "07:00").getD "-") (some "07:00"),
       exIdemStore) :=
  ⟨by decide, by decide,
   checkin_idempotent exIdemStore "1001" 0 "08:00" ⟨"s1", "1001", "Budi", "k1"⟩
     ⟨"s1", 0, some "07:00", some Status.Hadir⟩ (by decide) (by decide)⟩

/-- C5: stats_today returns the student count, today's per-status record
counts for Hadir/Sakit/Izin, and Absent = max(0, total - (present + sick +
excused)); with 10 students and 3 Hadir, 1 Sakit, 0 Izin today it returns
Absent = 6. -/
theorem stats_today_spec :
    (∀ (store : Store) (today : Nat),
      stats_today store today =
        { total := store.siswa.length
          hadir := countTodayStatus store today Status.Hadir
          sakit := countTodayStatus store today Status.Sakit
          izin := countTodayStatus store today Status.Izin
          alpha := max 0 ((store.siswa.length : Int) -
            ((countTodayStatus store today Status.Hadir : Int) +
             (countTodayStatus store today Status.Sakit : Int) +
             (countTodayStatus store today Status.Izin : Int))) }) ∧
    stats_today exStatsStore 0 =
      { hadir := 3, sakit := 1, izin := 0, alpha := 6, total := 10 } :=
  ⟨fun _ _ => rfl, by decide⟩

/-- `delete_one` on the siswa collection reports zero deletions exactly when
no document has the id. -/
theorem deleteOneSiswa_eq_none (l : List Siswa) (sid : String)
    (h : ∀ s ∈ l, s.id ≠ sid) : deleteOneSiswa l sid = none := by
  induction l with
  | nil => rfl
  | cons s rest ih =>
      have hs : s.id ≠ sid := h s (List.mem_cons_self s rest)
      simp only [deleteOneSiswa, if_neg hs]
      rw [ih (fun t ht => h t (List.mem_cons_of_mem s ht))]
      rfl

/-- C10: delete_student removes the attendance rows of the id before checking
that the student exists; on the NotFound path the attendance rows keyed by
that id are already gone (the cascade is not atomic with the existence
check), while the siswa and kelas collections are untouched. -/
theorem delete_siswa_cascade_not_atomic (store : Store) (sid : String)
    (h : ∀ s ∈ store.siswa, s.id ≠ sid) :
    delete_siswa store sid =
      (Except.error ApiErr.notFound,
       { store with absensi := deleteAbsensiBySiswa store.absensi sid }) := by
  simp only [delete_siswa, deleteOneSiswa_eq_none store.siswa sid h]

theorem delete_siswa_cascade_witness :
    (∀ s ∈ exOrphanStore.siswa, s.id ≠ "ghost") ∧
    delete_siswa exOrphanStore "ghost" =
      (Except.error ApiErr.notFound,
       { exOrphanStore with
          absensi := deleteAbsensiBySiswa exOrphanStore.absensi "ghost" }) ∧
    deleteAbsensiBySiswa exOrphanStore.absensi "ghost" =
      [⟨"s1", 0, some "07:10", some Status.Hadir⟩] :=
  ⟨by decide, delete_siswa_cascade_not_atomic exOrphanStore "ghost" (by decide),
   by decide⟩

/-- C8: rekap fails with InvalidRange exactly when end < start; otherwise it
fails with NotFound exactly when a truthy nis resolves no student; and the
handler never changes the store. -/
theorem rekap_error_paths (store : Store) (start end_ : Nat)
    (idk nisq : Option String) :
    ((laporan_rekap store start end_ idk nisq).1 =
        Except.error ApiErr.invalidRange ↔ end_ < start) ∧
    ((laporan_rekap store start end_ idk nisq).1 =
        Except.error ApiErr.notFound ↔
      (start ≤ end_ ∧ optTruthy nisq = true ∧
        resolvedSiswa store idk nisq = [])) ∧
    (laporan_rekap store start end_ idk nisq).2 = store := by
  unfold laporan_rekap
  by_cases h1 : end_ < start
  · simp only [if_pos h1]
    simp [h1, Nat.not_le.mpr h1]
  · simp only [if_neg h1]
    by_cases h2 : (optTruthy nisq && (resolvedSiswa store idk nisq).isEmpty) = true
    · simp only [if_pos h2]
      rw [Bool.and_eq_true] at h2
      simp [h1, h2.1, List.isEmpty_iff.mp h2.2, Nat.le_of_not_lt h1]
    · simp only [if_neg h2]
      rw [Bool.and_eq_true, List.isEmpty_iff, not_and] at h2
      simp only [reduceCtorEq, false_iff, not_lt, not_and]
      exact ⟨Nat.le_of_not_lt h1, fun _ ht hres => h2 ht hres, trivial⟩

theorem rekap_error_paths_witness :
    ((laporan_rekap exRangeStore 3 2 none none).1 =
        Except.error ApiErr.invalidRange ↔ (2 : Nat) < 3) ∧
    ((laporan_rekap exRangeStore 0 2 none (some "9999")).1 =
        Except.error ApiErr.notFound ↔
      ((0 : Nat) ≤ 2 ∧ optTruthy (some "9999") = true ∧
        resolvedSiswa exRangeStore none (some "9999") = [])) :=
  ⟨(rekap_error_paths exRangeStore 3 2 none none).1,
   (rekap_error_paths exRangeStore 0 2 none (some "9999")).2.1⟩

/-- Upserting at a key makes that key's multiplicity `max 1` of what it was:
a first matching document is updated in place, otherwise one is inserted. -/
theorem keyCount_upsert_self (l : List Absensi) (sid : String) (tgl : Nat)
    (stat : Status) (jam : Option String) :
    keyCount (upsertAbsensi l sid tgl stat jam) sid tgl =
      max 1 (keyCount l sid tgl) := by
  induction l with
  | nil =>
      simp [upsertAbsensi, keyCount, absKeyMatch]
  | cons a rest ih =>
      by_cases hm : absKeyMatch sid tgl a = true
      · have hm' : absKeyMatch sid tgl (applySet a stat jam) = true := hm
        simp only [upsertAbsensi, if_pos hm, keyCount, List.filter_cons,
          hm', hm, List.length_cons, if_pos]
        omega
      · simp only [Bool.not_eq_true] at hm
        simp only [upsertAbsensi, hm, Bool.false_eq_true, ite_false, keyCount,
          List.filter_cons]
        exact ih

/-- Upserting at one key leaves every other key's multiplicity unchanged. -/
theorem keyCount_upsert_other (l : List Absensi) (sid : String) (tgl : Nat)
    (stat : Status) (jam : Option String) (sid' : String) (tgl' : Nat)
    (h : ¬(sid' = sid ∧ tgl' = tgl)) :
    keyCount (upsertAbsensi l sid tgl stat jam) sid' tgl' =
      keyCount l sid' tgl' := by
  induction l with
  | nil =>
      have hnew : absKeyMatch sid' tgl' (⟨sid, tgl, jam, some stat⟩ : Absensi) = false := by
        simp only [absKeyMatch]
        rw [not_and_or] at h
        rcases h with hs | ht
        · have hd : decide (sid = sid') = false :=
            decide_eq_false (fun hss => hs hss.symm)
          simp [hd]
        · have hd : decide (tgl = tgl') = false :=
            decide_eq_false (fun htt => ht htt.symm)
          simp [hd]
      simp [upsertAbsensi, keyCount, hnew]
  | cons a rest ih =>
      by_cases hm : absKeyMatch sid tgl a = true
      · have hsame : absKeyMatch sid' tgl' (applySet a stat jam) =
            absKeyMatch sid' tgl' a := rfl
        simp only [upsertAbsensi, if_pos hm, keyCount, List.filter_cons, hsame]
        by_cases hk : absKeyMatch sid' tgl' a = true <;> simp [hk]
      · simp only [Bool.not_eq_true] at hm
        simp only [upsertAbsensi, hm, Bool.false_eq_true, ite_false, keyCount,
          List.filter_cons]
        by_cases hk : absKeyMatch sid' tgl' a = true
        · simp only [hk, if_pos, List.length_cons]
          exact congrArg Nat.succ ih
        · simp only [Bool.not_eq_true] at hk
          simp only [hk, Bool.false_eq_true, ite_false]
          exact ih

/-- The per-(student, date) uniqueness invariant survives one upsert. -/
theorem atMostOne_upsert (l : List Absensi) (sid : String) (tgl : Nat)
    (stat : Status) (jam : Option String) (h : AtMostOnePerKey l) :
    AtMostOnePerKey (upsertAbsensi l sid tgl stat jam) := by
  intro sid' tgl'
  by_cases hk : sid' = sid ∧ tgl' = tgl
  · obtain ⟨rfl, rfl⟩ := hk
    rw [keyCount_upsert_self]
    have := h sid' tgl'
    omega
  · rw [keyCount_upsert_other l sid tgl stat jam sid' tgl' hk]
    exact h sid' tgl'

/-- Check-in and manual status set both preserve the uniqueness invariant:
each performs at most one keyed upsert. -/
theorem applyOp_preserves (store : Store) (op : AbsOp)
    (h : AtMostOnePerKey store.absensi) :
    AtMostOnePerKey (applyOp store op).absensi := by
  cases op with
  | checkin nis today now =>
      unfold applyOp absen_checkin
      dsimp only
      cases hfind : findSiswaByNis store nis with
      | none => exact h
      | some siswa =>
          dsimp only
          cases hex : store.absensi.find? (fun a =>
            a.id_siswa = siswa.id && a.tanggal = today &&
            a.status = some Status.Hadir) with
          | some e => exact h
          | none => exact atMostOne_upsert _ _ _ _ _ h
  | setstat nis tgl stat jam today now =>
      unfold applyOp set_status
      dsimp only
      cases hfind : findSiswaByNis store nis with
      | none => exact h
      | some siswa =>
          dsimp only
          exact atMostOne_upsert _ _ _ _ _ h

/-- C2: after any sequence of check-in / set-status operations, a store that
satisfies the per-(student, date) uniqueness invariant still satisfies it —
both operations write only through the upsert keyed on (student_id, date). -/
theorem atMostOne_after_ops (ops : List AbsOp) (store : Store)
    (h : AtMostOnePerKey store.absensi) :
    AtMostOnePerKey ((ops.foldl applyOp store).absensi) := by
  induction ops generalizing store with
  | nil => exact h
  | cons op rest ih =>
      exact ih (applyOp store op) (applyOp_preserves store op h)

theorem atMostOne_after_ops_witness :
    AtMostOnePerKey (Store.mk [] [⟨"s1", "1001", "Budi", "k1"⟩] []).absensi ∧
    AtMostOnePerKey
      (([AbsOp.checkin "1001" 0 "07:00",
         AbsOp.setstat "1001" (some 0) Status.Sakit none 0 "07:30",
         AbsOp.checkin "1001" 0 "07:45",
         AbsOp.checkin "1001" 1 "07:10"].foldl applyOp
        (Store.mk [] [⟨"s1", "1001", "Budi", "k1"⟩] [])).absensi) := by
  have h0 : AtMostOnePerKey (Store.mk [] [⟨"s1", "1001", "Budi", "k1"⟩] []).absensi := by
    intro sid tgl
    simp [keyCount]
  exact ⟨h0, atMostOne_after_ops _ _ h0⟩

/-- After an upsert, the document found under the upserted key carries the
written status, and a `jam_masuk` equal to the `$set` value when one was
carried, else whatever the previously found document had (absent when there
was none). -/
theorem lookupKey_upsert (l : List Absensi) (sid : String) (tgl : Nat)
    (stat : Status) (jam : Option String) :
    lookupKey (upsertAbsensi l sid tgl stat jam) sid tgl =
      some { id_siswa := sid, tanggal := tgl, status := some stat
             jam_masuk := setJamField jam
               (((lookupKey l sid tgl).map Absensi.jam_masuk).getD none) } := by
  induction l with
  | nil =>
      have hk : absKeyMatch sid tgl (⟨sid, tgl, jam, some stat⟩ : Absensi) = true := by
        simp [absKeyMatch]
      simp only [upsertAbsensi, lookupKey, List.find?_cons_of_pos _ hk,
        List.find?_nil, Option.map_none, Option.getD_none]
      cases jam <;> simp [setJamField]
  | cons a rest ih =>
      by_cases hm : absKeyMatch sid tgl a = true
      · have hm' : absKeyMatch sid tgl (applySet a stat jam) = true := hm
        obtain ⟨hid, htg⟩ : a.id_siswa = sid ∧ a.tanggal = tgl := by
          simpa [absKeyMatch] using hm
        simp only [upsertAbsensi, if_pos hm, lookupKey,
          List.find?_cons_of_pos _ hm', List.find?_cons_of_pos _ hm]
        simp [applySet, hid, htg]
      · have hm0 : absKeyMatch sid tgl a = false := by
          simpa using hm
        have hneg : ¬(absKeyMatch sid tgl a = true) := by simp [hm0]
        simp only [upsertAbsensi, hm0, Bool.false_eq_true, ite_false, lookupKey]
        rw [List.find?_cons_of_neg _ hneg, List.find?_cons_of_neg _ hneg]
        exact ih

/-- C6 counterexample: at status Hadir with a provided but empty check-in
time, `payload.jam_masuk or now_time_str()` is falsy on the empty string, so
the code stores the current local time (08:30), not the provided value (""). -/
theorem set_status_empty_jam_counterexample :
    lookupKey ((set_status exJamStore "1001" (some 0) Status.Hadir (some "") 0
        "08:30").2).absensi "s1" 0 =
      some ⟨"s1", 0, some "08:30", some Status.Hadir⟩ ∧
    (some "08:30" : Option String) ≠ some "" :=
  ⟨by decide, by decide⟩

/-- C6 amended: for an existing student, when status = Present (Hadir) the
stored check_in_time is the provided value when that value is non-empty, and
the current local time when it is absent or empty (Python truthiness of the
payload field); for any other status check_in_time is written only when
explicitly provided (even empty), otherwise the previously stored time for
that (student, day) — if any — survives the overwrite. -/
theorem set_status_time_policy (store : Store) (nis : String)
    (tanggalOpt : Option Nat) (stat : Status) (jam : Option String)
    (today : Nat) (now : String) (s : Siswa)
    (hs : findSiswaByNis store nis = some s) :
    lookupKey ((set_status store nis tanggalOpt stat jam today now).2).absensi
        s.id (tanggalOpt.getD today) =
      some { id_siswa := s.id, tanggal := tanggalOpt.getD today
             status := some stat
             jam_masuk :=
               if stat = Status.Hadir then some (orElseTruthy jam now)
               else setJamField jam
                 (((lookupKey store.absensi s.id (tanggalOpt.getD today)).map
                     Absensi.jam_masuk).getD none) } := by
  unfold set_status
  rw [hs]
  dsimp only
  rw [lookupKey_upsert]
  by_cases hH : stat = Status.Hadir
  · simp [hH, setJamField]
  · simp [hH]

theorem set_status_time_policy_witness :
    findSiswaByNis exJamStore "1001" = some ⟨"s1", "1001", "Budi", "k1"⟩ ∧
    lookupKey ((set_status exJamStore "1001" (some 0) Status.Sakit none 5
        "09:00").2).absensi "s1" 0 =
      some ⟨"s1", 0, some "07:00", some Status.Sakit⟩ := by
  have h := set_status_time_policy exJamStore "1001" (some 0) Status.Sakit none 5
    "09:00" ⟨"s1", "1001", "Budi", "k1"⟩ (by decide)
  exact ⟨by decide, h⟩

/-- When no document matches the key, the upsert walks past the prefix and
rewrites the first matching document in place, touching nothing else. -/
theorem upsert_replace (l1 : List Absensi) (old : Absensi) (l2 : List Absensi)
    (sid : String) (tgl : Nat) (stat : Status) (jam : Option String)
    (hl1 : ∀ b ∈ l1, absKeyMatch sid tgl b = false)
    (hold : absKeyMatch sid tgl old = true) :
    upsertAbsensi (l1 ++ old :: l2) sid tgl stat jam =
      l1 ++ applySet old stat jam :: l2 := by
  induction l1 with
  | nil => simp [upsertAbsensi, hold]
  | cons b rest ih =>
      have hb : absKeyMatch sid tgl b = false := hl1 b (List.mem_cons_self b rest)
      simp only [List.cons_append, upsertAbsensi, hb, Bool.false_eq_true,
        ite_false]
      exact congrArg (fun t => b :: t)
        (ih (fun x hx => hl1 x (List.mem_cons_of_mem b hx)))

/-- C7: a check-in by a student whose only record for today carries a
non-Present status overwrites exactly that record with status Hadir and a
fresh check_in_time equal to the current time, leaving every other record in
place (a single keyed write). -/
theorem checkin_overwrites (store : Store) (nis : String) (today : Nat)
    (now : String) (s : Siswa) (l1 : List Absensi) (old : Absensi)
    (l2 : List Absensi)
    (hs : findSiswaByNis store nis = some s)
    (hsplit : store.absensi = l1 ++ old :: l2)
    (hl1 : ∀ b ∈ l1, absKeyMatch s.id today b = false)
    (hold : absKeyMatch s.id today old = true)
    (hnoH : store.absensi.find? (fun a =>
      a.id_siswa = s.id && a.tanggal = today &&
      a.status = some Status.Hadir) = none) :
    absen_checkin store nis today now =
      (CheckinResult.ok "Absensi berhasil" now,
       { store with absensi :=
          l1 ++ (⟨s.id, today, some now, some Status.Hadir⟩ : Absensi) :: l2 }) := by
  unfold absen_checkin
  rw [hs]
  dsimp only
  rw [hnoH]
  dsimp only
  rw [hsplit, upsert_replace l1 old l2 s.id today Status.Hadir (some now) hl1 hold]
  obtain ⟨hid, htg⟩ : old.id_siswa = s.id ∧ old.tanggal = today := by
    simpa [absKeyMatch] using hold
  simp [applySet, setJamField, hid, htg]

theorem checkin_overwrites_witness :
    findSiswaByNis exSickStore "1001" = some ⟨"s1", "1001", "Budi", "k1"⟩ ∧
    exSickStore.absensi = [] ++ (⟨"s1", 0, none, some Status.Sakit⟩ : Absensi) :: [] ∧
    absen_checkin exSickStore "1001" 0 "07:15" =
      (CheckinResult.ok "Absensi berhasil" "07:15",
       { exSickStore with absensi :=
          [] ++ (⟨"s1", 0, some "07:15", some Status.Hadir⟩ : Absensi) :: [] }) :=
  ⟨by decide, by decide,
   checkin_overwrites exSickStore "1001" 0 "07:15" ⟨"s1", "1001", "Budi", "k1"⟩
     [] ⟨"s1", 0, none, some Status.Sakit⟩ []
     (by decide) rfl (fun b hb => absurd hb (List.not_mem_nil b))
     (by decide) (by decide)⟩

/-- Reading the fold that builds a python dict (later entries overwrite
earlier ones) at one key is a reverse-order search. -/
theorem dictFold_at (l : List Absensi) (m : String → Option Absensi)
    (sid : String) :
    (l.foldl (fun (m : String → Option Absensi) (a : Absensi) =>
        Function.update m a.id_siswa (some a)) m) sid =
      match l.reverse.find? (fun a => a.id_siswa = sid) with
      | some a => some a
      | none => m sid := by
  induction l generalizing m with
  | nil => rfl
  | cons a rest ih =>
      simp only [List.foldl_cons, List.reverse_cons, List.find?_append]
      rw [ih]
      cases hr : rest.reverse.find? (fun a => a.id_siswa = sid) with
      | some b => rfl
      | none =>
          by_cases hid : a.id_siswa = sid
          · have : List.find? (fun a => a.id_siswa = sid) [a] = some a :=
              List.find?_cons_of_pos _ (by simp [hid])
            simp only [Option.or, this]
            rw [← hid, Function.update_same]
          · have : List.find? (fun a => a.id_siswa = sid) [a] = none := by
              rw [List.find?_eq_none]
              intro x hx
              rw [List.mem_singleton] at hx
              subst hx
              simp [hid]
            simp only [Option.or, this]
            rw [Function.update_noteq (fun hss => hid hss.symm)]

/-- A predicate matched by at most one element is found at the same element
whether the list is searched forward or backward. -/
theorem find?_reverse_of_unique (l : List Absensi) (p : Absensi → Bool)
    (h : (l.filter p).length ≤ 1) :
    l.reverse.find? p = l.find? p := by
  induction l with
  | nil => rfl
  | cons a rest ih =>
      simp only [List.reverse_cons, List.find?_append]
      by_cases hp : p a = true
      · have hrest : ∀ x ∈ rest, ¬ p x := by
          have hlen := h
          simp only [List.filter_cons, hp, if_pos, List.length_cons] at hlen
          have : rest.filter p = [] := List.length_eq_zero.mp (by omega)
          exact fun x hx hpx =>
            (List.filter_eq_nil_iff.mp this) x hx hpx
        have h1 : rest.reverse.find? p = none := by
          rw [List.find?_eq_none]
          exact fun x hx => hrest x (List.mem_reverse.mp hx)
        have h2 : List.find? p [a] = some a := List.find?_cons_of_pos _ hp
        rw [h1, h2, List.find?_cons_of_pos _ hp]
        rfl
      · have hlen : (rest.filter p).length ≤ 1 := by
          have hlen := h
          simpa only [List.filter_cons, hp, Bool.false_eq_true, ite_false]
            using hlen
        have h2 : List.find? p [a] = none := by
          rw [List.find?_eq_none]
          intro x hx
          rw [List.mem_singleton] at hx
          subst hx
          simp [hp]
        rw [h2, ih hlen, List.find?_cons_of_neg _ hp]
        cases rest.find? p <;> rfl

/-- Under the per-(student, date) uniqueness invariant, the today-dict of
`status_today` reads back exactly the keyed lookup. -/
theorem absMapToday_eq_lookupKey (store : Store) (today : Nat) (sid : String)
    (hinv : AtMostOnePerKey store.absensi) :
    absMapToday store today sid = lookupKey store.absensi sid today := by
  unfold absMapToday
  rw [dictFold_at]
  have huniq :
      (((store.absensi.filter (fun a => a.tanggal = today)).filter
        (fun a => a.id_siswa = sid)).length ≤ 1) := by
    have hk := hinv sid today
    unfold keyCount at hk
    rw [List.filter_filter]
    calc (store.absensi.filter
          (fun a => decide (a.id_siswa = sid) && decide (a.tanggal = today))).length
        = (store.absensi.filter (absKeyMatch sid today)).length := by
          apply congrArg
          apply List.filter_congr
          intro x _
          rfl
      _ ≤ 1 := hk
  rw [find?_reverse_of_unique _ _ huniq, List.find?_filter]
  unfold lookupKey
  have hpred : (fun (a : Absensi) =>
      decide (decide (a.tanggal = today) = true ∧ decide (a.id_siswa = sid) = true)) =
      absKeyMatch sid today := by
    funext a
    by_cases h1 : a.tanggal = today <;> by_cases h2 : a.id_siswa = sid <;>
      simp [absKeyMatch, h1, h2]
  rw [hpred]
  cases hfind : List.find? (absKeyMatch sid today) store.absensi <;> rfl

/-- C4 counterexample: a stored record with status Alpha (Absent) for today
renders as "Belum Absen" ("Not yet checked in"), not as its label — the
claim's Absent clause fails on the code. -/
theorem status_today_alpha_counterexample :
    status_today exAlphaStore none 0 =
      [{ nama := "Budi", nis := "1001", kelas := ""
         status_hari_ini := "Belum Absen" }] ∧
    "Belum Absen" ≠ "Alpha" := ⟨by decide, by decide⟩

/-- C4 amended: per student, no record for today renders "Belum Absen",
Hadir renders "Sudah Absen pukul {jam_masuk}", Sakit/Izin render their own
label, and a stored record with status Alpha — or with a missing status —
renders "Belum Absen" (not the Alpha label). -/
theorem status_today_render (store : Store) (today : Nat)
    (hinv : AtMostOnePerKey store.absensi) :
    status_today store none today = store.siswa.map (fun s =>
      { nama := s.nama_lengkap, nis := s.nis
        kelas := kelasName store s.id_kelas
        status_hari_ini :=
          match lookupKey store.absensi s.id today with
          | none => "Belum Absen"
          | some r =>
              match r.status with
              | some Status.Hadir => "Sudah Absen pukul " ++ r.jam_masuk.getD "-"
              | some Status.Sakit => "Sakit"
              | some Status.Izin => "Izin"
              | _ => "Belum Absen" }) := by
  unfold status_today
  have hfilter : store.siswa.filter (fun s =>
      !optTruthy none || s.id_kelas = (none : Option String).getD "") =
      store.siswa := by
    simp [optTruthy]
  rw [hfilter]
  apply List.map_congr_left
  intro s _
  rw [absMapToday_eq_lookupKey store today s.id hinv]
  cases lookupKey store.absensi s.id today with
  | none => rfl
  | some r =>
      cases hst : r.status with
      | none => rfl
      | some v => cases v <;> rfl

theorem status_today_render_witness :
    AtMostOnePerKey exIdemStore.absensi ∧
    status_today exIdemStore none 0 = exIdemStore.siswa.map (fun s =>
      { nama := s.nama_lengkap, nis := s.nis
        kelas := kelasName exIdemStore s.id_kelas
        status_hari_ini :=
          match lookupKey exIdemStore.absensi s.id 0 with
          | none => "Belum Absen"
          | some r =>
              match r.status with
              | some Status.Hadir => "Sudah Absen pukul " ++ r.jam_masuk.getD "-"
              | some Status.Sakit => "Sakit"
              | some Status.Izin => "Izin"
              | _ => "Belum Absen" }) := by
  have hinv : AtMostOnePerKey exIdemStore.absensi := by
    intro sid tgl
    simp only [keyCount, exIdemStore]
    by_cases h1 : absKeyMatch sid tgl (⟨"s1", 0, some "07:00", some Status.Hadir⟩ : Absensi) = true <;>
      simp [List.filter, h1]
  exact ⟨hinv, status_today_render exIdemStore 0 hinv⟩

/-- On a dot-free pattern the prefix matcher is literal case-insensitive
prefix comparison. -/
theorem matchesPrefix_charwise (p : List Char) (hp : '.' ∉ p) :
    ∀ s : List Char, matchesPrefix p s = true ↔
      (p.map Char.toLower) <+: (s.map Char.toLower) := by
  induction p with
  | nil => intro s; simp [matchesPrefix]
  | cons c ps ih =>
      intro s
      have hc : c ≠ '.' := fun h => hp (h ▸ List.mem_cons_self c ps)
      have hps : '.' ∉ ps := fun h => hp (List.mem_cons_of_mem c h)
      cases s with
      | nil => simp [matchesPrefix]
      | cons d ds =>
          have hcm : regexCharMatch c d = true ↔ c.toLower = d.toLower := by
            simp [regexCharMatch, hc]
          simp only [matchesPrefix, Bool.and_eq_true, List.map_cons,
            List.cons_prefix_cons, hcm, ih hps ds]

/-- On a dot-free pattern the unanchored search is literal case-insensitive
substring containment. -/
theorem regexSearch_substring (p : List Char) (hp : '.' ∉ p) :
    ∀ s : List Char, regexSearch p s = true ↔
      (p.map Char.toLower) <:+: (s.map Char.toLower) := by
  intro s
  induction s with
  | nil =>
      simp only [regexSearch, List.map_nil]
      rw [matchesPrefix_charwise p hp []]
      simp
  | cons d ds ih =>
      simp only [regexSearch, Bool.or_eq_true]
      rw [matchesPrefix_charwise p hp (d :: ds), ih, List.map_cons,
        List.infix_cons_iff]

/-- C9 counterexample: the query is passed to the store as a regular
expression, so q = "a.c" selects the student named "abc" although neither
the name nor the nis contains "a.c" as a (case-insensitive) substring. -/
theorem list_siswa_regex_counterexample :
    (⟨"s1", "3001", "abc", "k1"⟩ : Siswa) ∈
      list_siswa exRegexStore none (some "a.c") ∧
    ¬ (("a.c".toList.map Char.toLower) <:+: ("abc".toList.map Char.toLower)) ∧
    ¬ (("a.c".toList.map Char.toLower) <:+: ("3001".toList.map Char.toLower)) :=
  ⟨by decide, by decide, by decide⟩

/-- C9 amended: for a query free of every regex metacharacter, membership in
the listing is exactly case-insensitive substring containment in the name or
the nis; queries containing metacharacters are interpreted as regular
expressions instead (see the `.` counterexample). -/
theorem list_siswa_substring (store : Store) (q : String) (s : Siswa)
    (hq : ∀ c ∈ q.toList, c ∉ regexMeta) :
    s ∈ list_siswa store none (some q) ↔
      s ∈ store.siswa ∧ (containsCI q s.nama_lengkap ∨ containsCI q s.nis) := by
  have hdot : '.' ∉ q.toList := fun hin => (hq '.' hin) (by decide)
  unfold list_siswa
  rw [List.mem_filter]
  simp only [optTruthy, Bool.not_false, Bool.true_or, Bool.true_and,
    Bool.not_not, Option.getD_some]
  constructor
  · rintro ⟨hmem, hcond⟩
    refine ⟨hmem, ?_⟩
    rw [Bool.or_eq_true] at hcond
    rcases hcond with hemp | hmatch
    · have hq0 : q = "" := (String.isEmpty_iff q).mp hemp
      subst hq0
      exact Or.inl (by simp [containsCI])
    · unfold siswaMatchQ at hmatch
      rw [Bool.or_eq_true] at hmatch
      rcases hmatch with h1 | h2
      · exact Or.inl ((regexSearch_substring q.toList hdot _).mp h1)
      · exact Or.inr ((regexSearch_substring q.toList hdot _).mp h2)
  · rintro ⟨hmem, hsub⟩
    refine ⟨hmem, ?_⟩
    rw [Bool.or_eq_true]
    right
    unfold siswaMatchQ
    rw [Bool.or_eq_true]
    rcases hsub with h1 | h2
    · exact Or.inl ((regexSearch_substring q.toList hdot _).mpr h1)
    · exact Or.inr ((regexSearch_substring q.toList hdot _).mpr h2)

theorem list_siswa_substring_witness :
    (∀ c ∈ "ud".toList, c ∉ regexMeta) ∧
    ((⟨"s1", "1001", "Budi", "k1"⟩ : Siswa) ∈
        list_siswa exSubstrStore none (some "ud") ↔
      (⟨"s1", "1001", "Budi", "k1"⟩ : Siswa) ∈ exSubstrStore.siswa ∧
        (containsCI "ud" "Budi" ∨ containsCI "ud" "1001")) :=
  ⟨by decide,
   list_siswa_substring exSubstrStore "ud" ⟨"s1", "1001", "Budi", "k1"⟩
     (by decide)⟩

/-- One record-loop step only touches the entry of the record's student. -/
theorem rekapStep_at (m : Summary) (pm : PresentMap) (a : Absensi)
    (sid : String) :
    ((rekapStep (m, pm) a).1 sid, (rekapStep (m, pm) a).2 sid) =
      if a.id_siswa = sid then stepAtKey (m sid, pm sid) a
      else (m sid, pm sid) := by
  by_cases h : a.id_siswa = sid
  · subst h
    rw [if_pos rfl]
    unfold rekapStep stepAtKey
    dsimp only
    cases hm : m a.id_siswa with
    | none => simp [hm]
    | some r =>
        dsimp only
        split_ifs with hc
        · simp [Function.update_same]
        · simp [hm]
  · rw [if_neg h]
    unfold rekapStep
    dsimp only
    cases hm : m a.id_siswa with
    | none => simp
    | some r =>
        dsimp only
        split_ifs with hc
        · have hne : sid ≠ a.id_siswa := fun hss => h hss.symm
          simp [Function.update_noteq hne]
        · simp

/-- Reading the record-loop fold at one student's key equals folding the
one-key step over that student's records only. -/
theorem rekapFold_at (data : List Absensi) (m : Summary) (pm : PresentMap)
    (sid : String) :
    ((data.foldl rekapStep (m, pm)).1 sid, (data.foldl rekapStep (m, pm)).2 sid) =
      (data.filter (fun a => a.id_siswa = sid)).foldl stepAtKey (m sid, pm sid) := by
  induction data generalizing m pm with
  | nil => rfl
  | cons a rest ih =>
      simp only [List.foldl_cons, List.filter_cons]
      have hstep := rekapStep_at m pm a sid
      have hih := ih (rekapStep (m, pm) a).1 (rekapStep (m, pm) a).2
      rw [Prod.mk.eta] at hih
      by_cases h : a.id_siswa = sid
      · rw [if_pos h] at hstep
        rw [if_pos (by simp [h])]
        rw [List.foldl_cons, hih, hstep]
      · rw [if_neg h] at hstep
        rw [if_neg (by simp [h])]
        rw [hih, hstep]

/-- Initialising the summary dict does not touch ids outside the list. -/
theorem initFold_notMem (store : Store) (l : List Siswa) (m : Summary)
    (sid : String) (h : sid ∉ l.map Siswa.id) :
    l.foldl (fun (m : Summary) (s : Siswa) =>
        Function.update m s.id (some (initRow store s))) m sid =
      m sid := by
  induction l generalizing m with
  | nil => rfl
  | cons t rest ih =>
      simp only [List.map_cons, List.mem_cons, not_or] at h
      rw [List.foldl_cons, ih _ h.2, Function.update_noteq h.1]

/-- With duplicate-free ids, the initial summary of a listed student is its
zeroed row. -/
theorem initFold_at (store : Store) (l : List Siswa) (m : Summary) (s : Siswa)
    (hs : s ∈ l) (hnodup : (l.map Siswa.id).Nodup) :
    l.foldl (fun (m : Summary) (t : Siswa) =>
        Function.update m t.id (some (initRow store t))) m s.id =
      some (initRow store s) := by
  induction l generalizing m with
  | nil => cases hs
  | cons t rest ih =>
      rw [List.map_cons, List.nodup_cons] at hnodup
      rw [List.foldl_cons]
      rcases List.mem_cons.mp hs with rfl | hmem
      · rw [initFold_notMem store rest _ s.id hnodup.1, Function.update_same]
      · exact ih _ hmem hnodup.2

/-- Folding the one-key step over a student's records yields the per-status
record counts and the accumulated set of counted dates. -/
theorem stepAtKey_foldl (l : List Absensi) (r0 : RekapRow) (d0 : List Nat) :
    l.foldl stepAtKey (some r0, d0) =
      (some { r0 with
          hadir := r0.hadir +
            (l.filter (fun a => a.status = some Status.Hadir)).length
          sakit := r0.sakit +
            (l.filter (fun a => a.status = some Status.Sakit)).length
          izin := r0.izin +
            (l.filter (fun a => a.status = some Status.Izin)).length },
       ((l.filter countedStat).map Absensi.tanggal).foldl insertDate d0) := by
  induction l generalizing r0 d0 with
  | nil => simp
  | cons a rest ih =>
      rw [List.foldl_cons]
      cases hst : a.status with
      | none =>
          have hstep : stepAtKey (some r0, d0) a = (some r0, d0) := by
            simp [stepAtKey, hst]
          rw [hstep, ih]
          simp [List.filter_cons, hst, countedStat]
      | some v =>
          cases v with
          | Hadir =>
              have hstep : stepAtKey (some r0, d0) a =
                  (some (bumpRow r0 Status.Hadir), insertDate d0 a.tanggal) := by
                simp [stepAtKey, hst]
              rw [hstep, ih]
              simp only [List.filter_cons, hst, countedStat, bumpRow,
                List.map_cons, List.foldl_cons]
              simp [Prod.mk.injEq, RekapRow.mk.injEq]
              omega
          | Sakit =>
              have hstep : stepAtKey (some r0, d0) a =
                  (some (bumpRow r0 Status.Sakit), insertDate d0 a.tanggal) := by
                simp [stepAtKey, hst]
              rw [hstep, ih]
              simp only [List.filter_cons, hst, countedStat, bumpRow,
                List.map_cons, List.foldl_cons]
              simp [Prod.mk.injEq, RekapRow.mk.injEq]
              omega
          | Izin =>
              have hstep : stepAtKey (some r0, d0) a =
                  (some (bumpRow r0 Status.Izin), insertDate d0 a.tanggal) := by
                simp [stepAtKey, hst]
              rw [hstep, ih]
              simp only [List.filter_cons, hst, countedStat, bumpRow,
                List.map_cons, List.foldl_cons]
              simp [Prod.mk.injEq, RekapRow.mk.injEq]
              omega
          | Alpha =>
              have hstep : stepAtKey (some r0, d0) a = (some r0, d0) := by
                simp [stepAtKey, hst]
              rw [hstep, ih]
              simp [List.filter_cons, hst, countedStat]

/-- Membership in the set-insertion fold. -/
theorem foldl_insertDate_mem (dl : List Nat) (d0 : List Nat) (x : Nat) :
    x ∈ dl.foldl insertDate d0 ↔ x ∈ d0 ∨ x ∈ dl := by
  induction dl generalizing d0 with
  | nil => simp
  | cons d rest ih =>
      rw [List.foldl_cons, ih]
      unfold insertDate
      by_cases hd : d ∈ d0
      · rw [if_pos hd]
        constructor
        · rintro (h | h)
          · exact Or.inl h
          · exact Or.inr (List.mem_cons_of_mem d h)
        · rintro (h | h)
          · exact Or.inl h
          · rcases List.mem_cons.mp h with rfl | h2
            · exact Or.inl hd
            · exact Or.inr h2
      · rw [if_neg hd]
        simp only [List.mem_cons]
        tauto

/-- The set-insertion fold keeps the accumulator duplicate-free. -/
theorem foldl_insertDate_nodup (dl : List Nat) (d0 : List Nat)
    (h : d0.Nodup) : (dl.foldl insertDate d0).Nodup := by
  induction dl generalizing d0 with
  | nil => exact h
  | cons d rest ih =>
      rw [List.foldl_cons]
      apply ih
      unfold insertDate
      by_cases hd : d ∈ d0
      · rwa [if_pos hd]
      · rw [if_neg hd]
        exact List.nodup_cons.mpr ⟨hd, h⟩

/-- The length of the set-insertion fold from the empty set is the number of
distinct inserted elements. -/
theorem foldl_insertDate_length (dl : List Nat) :
    (dl.foldl insertDate []).length = dl.toFinset.card := by
  have hnd : (dl.foldl insertDate []).Nodup :=
    foldl_insertDate_nodup dl [] List.nodup_nil
  rw [← List.toFinset_card_of_nodup hnd]
  congr 1
  ext x
  simp [List.mem_toFinset, foldl_insertDate_mem]

/-- Restricting the fetched range records to one resolved student's id gives
that student's in-range records of the whole collection. -/
theorem rekapData_filter_sid (store : Store) (start end_ : Nat)
    (ids : List String) (sid : String) (hmem : sid ∈ ids) :
    (rekapData store start end_ ids).filter (fun a => a.id_siswa = sid) =
      store.absensi.filter (fun a =>
        a.id_siswa = sid &&
        (decide (start ≤ a.tanggal) && decide (a.tanggal ≤ end_))) := by
  unfold rekapData
  rw [List.filter_filter]
  apply List.filter_congr
  intro a _
  by_cases hid : a.id_siswa = sid
  · have hcont : ids.contains sid = true := List.elem_eq_true_of_mem hmem
    simp only [hid, hcont, decide_True, Bool.or_true, Bool.and_true,
      Bool.true_and]
  · simp [hid]

/-- The per-status counters of the loop agree with the claim's counts. -/
theorem filter_sid_status (store : Store) (start end_ : Nat)
    (ids : List String) (sid : String) (hmem : sid ∈ ids) (stat : Status) :
    (((rekapData store start end_ ids).filter
        (fun a => a.id_siswa = sid)).filter
      (fun a => a.status = some stat)).length =
      countStatusInRange store sid start end_ stat := by
  rw [rekapData_filter_sid store start end_ ids sid hmem, List.filter_filter]
  unfold countStatusInRange
  congr 1
  apply List.filter_congr
  intro a _
  cases h1 : decide (a.id_siswa = sid) <;>
    cases h2 : decide (start ≤ a.tanggal) <;>
      cases h3 : decide (a.tanggal ≤ end_) <;>
        cases h4 : decide (a.status = some stat) <;> rfl

/-- The counted records of the loop agree with the claim's recorded-dates
filter. -/
theorem filter_sid_counted (store : Store) (start end_ : Nat)
    (ids : List String) (sid : String) (hmem : sid ∈ ids) :
    ((rekapData store start end_ ids).filter
        (fun a => a.id_siswa = sid)).filter countedStat =
      store.absensi.filter (fun a =>
        a.id_siswa = sid &&
        (decide (start ≤ a.tanggal) && decide (a.tanggal ≤ end_)) &&
        countedStat a) := by
  rw [rekapData_filter_sid store start end_ ids sid hmem, List.filter_filter]
  apply List.filter_congr
  intro a _
  cases h1 : decide (a.id_siswa = sid) <;>
    cases h2 : decide (start ≤ a.tanggal) <;>
      cases h3 : decide (a.tanggal ≤ end_) <;>
        cases h4 : countedStat a <;> rfl

/-- C1: for a valid range and duplicate-free student ids, every resolved
student's summary row counts its Hadir/Sakit/Izin records over the range and
derives Absent as `max(0, total_days - |recorded_dates|)`; records with
status Alpha or a missing status enter neither the counters nor the
recorded-dates set. -/
theorem rekap_correct (store : Store) (start end_ : Nat)
    (idk nisq : Option String)
    (hrange : start ≤ end_)
    (hnodup : (store.siswa.map Siswa.id).Nodup)
    (hfound : optTruthy nisq = false ∨ resolvedSiswa store idk nisq ≠ []) :
    (laporan_rekap store start end_ idk nisq).1 =
      Except.ok ((resolvedSiswa store idk nisq).map
        (specRekapRow store start end_)) := by
  unfold laporan_rekap
  rw [if_neg (Nat.not_lt.mpr hrange)]
  have hcond : (optTruthy nisq && (resolvedSiswa store idk nisq).isEmpty) = false := by
    rcases hfound with h | h
    · simp [h]
    · simp [List.isEmpty_iff, h]
  simp only [hcond, Bool.false_eq_true, if_false]
  congr 1
  apply List.map_congr_left
  intro s hs
  have hnodup2 : ((resolvedSiswa store idk nisq).map Siswa.id).Nodup :=
    List.Nodup.sublist
      (List.Sublist.map Siswa.id (List.filter_sublist store.siswa)) hnodup
  have hmem : s.id ∈ (resolvedSiswa store idk nisq).map Siswa.id :=
    List.mem_map_of_mem Siswa.id hs
  have hinit : initSummary store (resolvedSiswa store idk nisq) s.id =
      some (initRow store s) :=
    initFold_at store (resolvedSiswa store idk nisq) (fun _ => none) s hs hnodup2
  have hloc := rekapFold_at
    (rekapData store start end_ ((resolvedSiswa store idk nisq).map Siswa.id))
    (initSummary store (resolvedSiswa store idk nisq)) (fun _ => []) s.id
  rw [hinit] at hloc
  rw [stepAtKey_foldl] at hloc
  rw [Prod.mk.injEq] at hloc
  obtain ⟨hfst, hsnd⟩ := hloc
  rw [hfst, hsnd]
  simp only [Option.map_some', Option.getD_some]
  unfold specRekapRow initRow
  rw [foldl_insertDate_length]
  rw [filter_sid_status store start end_ _ s.id hmem Status.Hadir,
      filter_sid_status store start end_ _ s.id hmem Status.Sakit,
      filter_sid_status store start end_ _ s.id hmem Status.Izin,
      filter_sid_counted store start end_ _ s.id hmem]
  simp only [List.length_map, List.length_range, Nat.zero_add]
  unfold recordedDates
  rfl

theorem rekap_correct_witness :
    (0 : Nat) ≤ 4 ∧
    (exRekapStore.siswa.map Siswa.id).Nodup ∧
    (optTruthy none = false ∨ resolvedSiswa exRekapStore none none ≠ []) ∧
    (laporan_rekap exRekapStore 0 4 none none).1 =
      Except.ok [{ nis := "1001", nama := "Budi", kelas := "X-A"
                   hadir := 2, sakit := 0, izin := 0, alpha := 3 }] := by
  have h := rekap_correct exRekapStore 0 4 none none (by omega) (by decide)
    (Or.inl (by decide))
  refine ⟨by omega, by decide, Or.inl (by decide), ?_⟩
  rw [h]
  exact congrArg Except.ok (by decide)

end SIAS
